import Mathlib

/-!
Shallow embedding of the Rwanda financial-inclusion dashboard
(`streamlit_app.py`): the data-preparation pipeline (inner merge of the
demographics and financial-services tables, derived columns, `pd.qcut`
income quintiles), the sidebar filter block of `main`, and the six
aggregation views.

Modelling conventions, matching the loader contract of the data files:
the five 0/1 service-flag columns are `Bool` (so a pandas `== 1`
comparison is the flag itself and `== 0` its negation), numeric columns
are `ℚ`, `age` is `Int`.  A pandas mean over an empty column yields NaN,
modelled as `Option.none`; NaN-propagating arithmetic uses `osub`.  Each
view function returns the dataframe object as it is after the call
(pandas column assignment mutates the frame it is given) together with
`Except` of its presentation output, a raised Python exception being
`Except.error`.  `np.quantile` uses linear interpolation between sorted
order statistics; `pd.qcut`/`pd.cut` assign right-closed bins through
`searchsorted(side='left')` and raise when bin edges are not unique.
-/

namespace FinDash

/-- Demographics record: one row of `demographics.csv`. -/
structure DemoRow where
  respondent_id : Nat
  province : String
  urban_rural : String
  age : Int
  education : String
  monthly_income_rwf : ℚ
deriving DecidableEq, Inhabited

/-- Service-usage record: one row of `financial_services.csv`. -/
structure ServiceRow where
  respondent_id : Nat
  has_bank_account : Bool
  uses_mobile_money : Bool
  has_savings : Bool
  has_loan : Bool
  uses_insurance : Bool
  financial_literacy_score : ℚ
deriving DecidableEq, Inhabited

/-- A row of the merged analysis table.  `age_group` and `service_count`
are columns added later by two of the views (`none` until assigned). -/
structure Row where
  respondent_id : Nat
  province : String
  urban_rural : String
  age : Int
  education : String
  monthly_income_rwf : ℚ
  has_bank_account : Bool
  uses_mobile_money : Bool
  has_savings : Bool
  has_loan : Bool
  uses_insurance : Bool
  financial_literacy_score : ℚ
  any_formal_service : Bool
  income_quintile : Option String
  age_group : Option String
  service_count : Option Nat
deriving DecidableEq, Inhabited

/-- The quintile labels passed to `pd.qcut`. -/
def labelsQ : List String := ["Q1", "Q2", "Q3", "Q4", "Q5"]

/-- The probability grid `np.linspace(0, 1, 6)` used by `pd.qcut(..., q=5)`. -/
def probs5 : List ℚ := (List.range 6).map (fun (i : ℕ) => (i : ℚ) / 5)

/-- `np.quantile` (method `'linear'`) of a sorted list `s` at probability `p`:
interpolate between the order statistics at positions `⌊p*(n-1)⌋` and
`⌊p*(n-1)⌋ + 1`. -/
def quantileAt (s : List ℚ) (p : ℚ) : ℚ :=
  s.getD (⌊p * ((s.length : ℚ) - 1)⌋.toNat) 0
    + (p * ((s.length : ℚ) - 1) - ((⌊p * ((s.length : ℚ) - 1)⌋.toNat : ℚ)))
      * (s.getD (⌊p * ((s.length : ℚ) - 1)⌋.toNat + 1)
            (s.getD (⌊p * ((s.length : ℚ) - 1)⌋.toNat) 0)
          - s.getD (⌊p * ((s.length : ℚ) - 1)⌋.toNat) 0)

/-- The six candidate bin edges `pd.qcut(xs, q=5)` computes. -/
def quantiles5 (xs : List ℚ) : List ℚ :=
  probs5.map (quantileAt (List.insertionSort (· ≤ ·) xs))

/-- `bins.searchsorted(v, side='left')`: the number of bin edges strictly
below `v` (`edges` is sorted). -/
def cutIds (edges : List ℚ) (v : ℚ) : Nat :=
  edges.countP (fun e => decide (e < v))

/-- Bucket label assignment of pandas `_bins_to_cuts` with `right=True`:
values outside every bin get NaN (`none`); with `includeLowest` (as in
`qcut`) a value equal to the lowest edge is pinned into the first bin. -/
def cutLabel (includeLowest : Bool) (edges : List ℚ) (labels : List String) (v : ℚ) :
    Option String :=
  let ids := if includeLowest && (v == edges.headD 0) then 1 else cutIds edges v
  if ids = 0 ∨ ids = edges.length then none else some (labels.getD (ids - 1) "")

/-- The age labels of the demographic view. -/
def ageLabels : List String := ["18-25", "26-35", "36-45", "46-55", "56+"]

/-- `pd.cut(df['age'], bins=[0, 25, 35, 45, 55, 100], labels=[...])` applied
to a single age (default `right=True`, `include_lowest=False`). -/
def ageGroupOf (a : Int) : Option String :=
  cutLabel false [0, 25, 35, 45, 55, 100] ageLabels (a : ℚ)

/-- The label `pd.qcut(..., labels=['Q1'..'Q5'])` gives one value, once the
bin edges are fixed. -/
def qcutLabelOf (edges : List ℚ) (v : ℚ) : Option String :=
  cutLabel true edges labelsQ v

/-- `demographics.merge(financial_services, on='respondent_id', how='inner')`:
for each left row, in order, all matching right rows. -/
def mergeTables (demos : List DemoRow) (servs : List ServiceRow) :
    List (DemoRow × ServiceRow) :=
  demos.flatMap (fun d =>
    (servs.filter (fun s => s.respondent_id == d.respondent_id)).map (fun s => (d, s)))

/-- Build one merged row with its derived columns: `any_formal_service` is
`(has_bank_account == 1) | (uses_mobile_money == 1) | (has_savings == 1)`. -/
def mkRow (d : DemoRow) (s : ServiceRow) (iq : Option String) : Row :=
  { respondent_id := d.respondent_id
    province := d.province
    urban_rural := d.urban_rural
    age := d.age
    education := d.education
    monthly_income_rwf := d.monthly_income_rwf
    has_bank_account := s.has_bank_account
    uses_mobile_money := s.uses_mobile_money
    has_savings := s.has_savings
    has_loan := s.has_loan
    uses_insurance := s.uses_insurance
    financial_literacy_score := s.financial_literacy_score
    any_formal_service := s.has_bank_account || s.uses_mobile_money || s.has_savings
    income_quintile := iq
    age_group := none
    service_count := none }

/-- The merged income column `df['monthly_income_rwf']`. -/
def incomesOf (demos : List DemoRow) (servs : List ServiceRow) : List ℚ :=
  (mergeTables demos servs).map (fun p => p.1.monthly_income_rwf)

/-- `prepare_analysis_data`: inner merge, derive `any_formal_service`, then
`df['income_quintile'] = pd.qcut(df['monthly_income_rwf'], q=5, labels=...)`.
`pd.qcut` raises `ValueError: Bin edges must be unique` when the computed
quantile edges contain duplicates, aborting preparation. -/
def prepare_analysis_data (demos : List DemoRow) (servs : List ServiceRow) :
    Except String (List Row) :=
  if (quantiles5 (incomesOf demos servs)).Nodup then
    Except.ok ((mergeTables demos servs).map (fun p =>
      mkRow p.1 p.2 (qcutLabelOf (quantiles5 (incomesOf demos servs)) p.1.monthly_income_rwf)))
  else
    Except.error "Bin edges must be unique"

/-- The filter block of `main`:
`filtered_df = df[df['province'].isin(selected_provinces)]` followed by
`if urban_rural_filter != 'All': filtered_df = filtered_df[filtered_df['urban_rural'] == urban_rural_filter]`. -/
def applyFilters (df : List Row) (provinces : List String) (urbanRural : String) :
    List Row :=
  let f1 := df.filter (fun r => provinces.contains r.province)
  if urbanRural != "All" then f1.filter (fun r => r.urban_rural == urbanRural) else f1

/-- pandas `Series.mean()`: NaN (`none`) on an empty column. -/
def mean (xs : List ℚ) : Option ℚ :=
  if xs.length = 0 then none else some (xs.sum / (xs.length : ℚ))

/-- Mean of a 0/1 indicator column. -/
def boolMean (df : List Row) (f : Row → Bool) : Option ℚ :=
  mean (df.map (fun r => if f r then (1 : ℚ) else 0))

/-- NaN-propagating subtraction. -/
def osub (a b : Option ℚ) : Option ℚ :=
  match a, b with
  | some x, some y => some (x - y)
  | _, _ => none

/-- `df.groupby(key)` group keys: the distinct key values, sorted ascending
(pandas `groupby` default `sort=True`). -/
def groupKeys (df : List Row) (key : Row → String) : List String :=
  (List.insertionSort (· ≤ ·) (df.map key)).dedup

/-- `service_count` as summed by `show_service_usage`. -/
def svcCount (r : Row) : Nat :=
  (if r.has_bank_account then 1 else 0) + (if r.uses_mobile_money then 1 else 0)
    + (if r.has_savings then 1 else 0) + (if r.has_loan then 1 else 0)
    + (if r.uses_insurance then 1 else 0)

/-- Python exceptions a view can raise.  `emptyInputError` is the failure
mode the specification prescribes for aggregations on zero rows; the code
itself only ever produces `zeroDivisionError` (from `excluded_count/len(df)`). -/
inductive ViewError where
  | zeroDivisionError
  | emptyInputError
deriving DecidableEq

/-- Presentation data of the executive-overview view. -/
structure ExecOutput where
  formal_inclusion : Option ℚ
  mobile_money_rate : Option ℚ
  mobile_vs_banking : Option ℚ
  avg_literacy : Option ℚ
  excluded_count : Nat
  excluded_share : ℚ
  adoption_rates : List (String × Option ℚ)
  urban_rural_comparison : List (String × Option ℚ × Option ℚ × Option ℚ)
deriving DecidableEq

/-- `show_executive_overview`.  On an empty frame the means render as NaN but
`f"{excluded_count/len(df):.1%}"` raises `ZeroDivisionError`. -/
def show_executive_overview (df : List Row) : List Row × Except ViewError ExecOutput :=
  (df,
    if df.length = 0 then Except.error ViewError.zeroDivisionError
    else
      Except.ok
        { formal_inclusion := boolMean df (fun r => r.any_formal_service)
          mobile_money_rate := boolMean df (fun r => r.uses_mobile_money)
          mobile_vs_banking :=
            osub (boolMean df (fun r => r.uses_mobile_money))
              (boolMean df (fun r => r.has_bank_account))
          avg_literacy := mean (df.map (fun r => r.financial_literacy_score))
          excluded_count := (df.filter (fun r => r.any_formal_service == false)).length
          excluded_share :=
            ((df.filter (fun r => r.any_formal_service == false)).length : ℚ)
              / (df.length : ℚ)
          adoption_rates :=
            [("Bank Account", boolMean df (fun r => r.has_bank_account)),
              ("Mobile Money", boolMean df (fun r => r.uses_mobile_money)),
              ("Savings", boolMean df (fun r => r.has_savings)),
              ("Loans", boolMean df (fun r => r.has_loan)),
              ("Insurance", boolMean df (fun r => r.uses_insurance))]
          urban_rural_comparison :=
            (groupKeys df (fun r => r.urban_rural)).map (fun k =>
              let g := df.filter (fun r => r.urban_rural == k)
              (k, boolMean g (fun r => r.has_bank_account),
                boolMean g (fun r => r.uses_mobile_money),
                boolMean g (fun r => r.any_formal_service))) })

/-- Presentation data of the demographic view. -/
structure DemoOutput where
  edu_analysis : List (String × Option ℚ × Option ℚ × Option ℚ)
  age_analysis : List (String × Option ℚ × Option ℚ)
deriving DecidableEq

/-- `show_demographic_analysis`.  Note the column assignment
`df['age_group'] = pd.cut(df['age'], ...)` mutates the frame it was given;
the returned first component is the frame after the call.  `groupby` on the
categorical `age_group` keeps all five categories in bucket order. -/
def show_demographic_analysis (df : List Row) : List Row × Except ViewError DemoOutput :=
  let edu :=
    (groupKeys df (fun r => r.education)).map (fun k =>
      let g := df.filter (fun r => r.education == k)
      (k, boolMean g (fun r => r.any_formal_service),
        mean (g.map (fun r => r.financial_literacy_score)),
        mean (g.map (fun r => r.monthly_income_rwf))))
  let df2 := df.map (fun r => { r with age_group := ageGroupOf r.age })
  let age :=
    ageLabels.map (fun k =>
      let g := df2.filter (fun r => r.age_group == some k)
      (k, boolMean g (fun r => r.uses_mobile_money), boolMean g (fun r => r.has_bank_account)))
  (df2, Except.ok { edu_analysis := edu, age_analysis := age })

/-- One row of the provincial statistics table. -/
structure ProvStat where
  province : String
  inclusion : Option ℚ
  mobile : Option ℚ
  banking : Option ℚ
  income : Option ℚ
  literacy : Option ℚ
deriving DecidableEq

/-- Comparison on possibly-NaN means used to model
`sort_values('any_formal_service', ascending=True)`. -/
def optLe (a b : Option ℚ) : Bool :=
  match a, b with
  | some x, some y => decide (x ≤ y)
  | none, _ => true
  | _, none => false

/-- Presentation data of the provincial view. -/
structure ProvOutput where
  province_stats : List ProvStat
deriving DecidableEq

/-- `show_provincial_analysis`: group by province, aggregate means, sort by
inclusion rate ascending.  (The source delegates the sort to pandas
`sort_values` with its default `kind='quicksort'`; the model uses a sort on
the same key.) -/
def show_provincial_analysis (df : List Row) : List Row × Except ViewError ProvOutput :=
  let stats :=
    (groupKeys df (fun r => r.province)).map (fun k =>
      let g := df.filter (fun r => r.province == k)
      ({ province := k
         inclusion := boolMean g (fun r => r.any_formal_service)
         mobile := boolMean g (fun r => r.uses_mobile_money)
         banking := boolMean g (fun r => r.has_bank_account)
         income := mean (g.map (fun r => r.monthly_income_rwf))
         literacy := mean (g.map (fun r => r.financial_literacy_score)) } : ProvStat))
  (df, Except.ok
    { province_stats :=
        List.insertionSort (fun a b => optLe a.inclusion b.inclusion = true) stats })

/-- Presentation data of the service-usage view. -/
structure ServiceOutput where
  service_dist : List (Nat × Nat)
  income_service : List (String × Option ℚ × Option ℚ × Option ℚ × Option ℚ)
deriving DecidableEq

/-- `show_service_usage`.  The assignment `df['service_count'] = ...` mutates
the frame; `value_counts().sort_index()` lists only the observed values,
ascending, with their counts.  The quintile groupby keeps the categorical
order Q1..Q5. -/
def show_service_usage (df : List Row) : List Row × Except ViewError ServiceOutput :=
  let df2 := df.map (fun r => { r with service_count := some (svcCount r) })
  let counts := df2.map (fun r => r.service_count.getD 0)
  let dist := ((List.insertionSort (· ≤ ·) counts).dedup).map (fun v => (v, counts.count v))
  let inc :=
    labelsQ.map (fun q =>
      let g := df2.filter (fun r => r.income_quintile == some q)
      (q, boolMean g (fun r => r.has_bank_account), boolMean g (fun r => r.uses_mobile_money),
        boolMean g (fun r => r.has_savings),
        mean (g.map (fun r => ((r.service_count.getD 0 : Nat) : ℚ)))))
  (df2, Except.ok { service_dist := dist, income_service := inc })

/-- One row of the segment-characteristics table (only built for segments
with at least one member). -/
structure SegRow where
  name : String
  size : Nat
  percentage : ℚ
  avg_income : Option ℚ
  urban_pct : Option ℚ
  avg_literacy : Option ℚ
deriving DecidableEq

/-- Presentation data of the market-segmentation view. -/
structure SegOutput where
  digital_champions : Nat
  mobile_only : Nat
  traditional_banking : Nat
  excluded : Nat
  segment_table : List SegRow
deriving DecidableEq

/-- Row predicates of the four segments, as written in the source. -/
def isDigitalChampion (r : Row) : Bool := r.uses_mobile_money && r.has_bank_account

/-- Mobile-only: `uses_mobile_money == 1` and `has_bank_account == 0`. -/
def isMobileOnly (r : Row) : Bool := r.uses_mobile_money && !r.has_bank_account

/-- Traditional banking: `has_bank_account == 1` and `uses_mobile_money == 0`. -/
def isTraditionalBanking (r : Row) : Bool := r.has_bank_account && !r.uses_mobile_money

/-- Financially excluded: both flags `== 0`. -/
def isExcludedSeg (r : Row) : Bool := !r.has_bank_account && !r.uses_mobile_money

/-- Segment-characteristics entry for a nonempty segment. -/
def segRowOf (df : List Row) (nm : String) (g : List Row) : SegRow :=
  { name := nm
    size := g.length
    percentage := (g.length : ℚ) / (df.length : ℚ)
    avg_income := mean (g.map (fun r => r.monthly_income_rwf))
    urban_pct := boolMean g (fun r => r.urban_rural == "Urban")
    avg_literacy := mean (g.map (fun r => r.financial_literacy_score)) }

/-- `show_market_segments`: the four `(uses_mobile_money, has_bank_account)`
segments, their sizes, and the characteristics table restricted to nonempty
segments (`if len(segment_df) > 0`). -/
def show_market_segments (df : List Row) : List Row × Except ViewError SegOutput :=
  let dc := df.filter isDigitalChampion
  let mo := df.filter isMobileOnly
  let tb := df.filter isTraditionalBanking
  let ex := df.filter isExcludedSeg
  let table :=
    ([("Digital Champions", dc), ("Mobile-Only Users", mo),
      ("Traditional Banking", tb), ("Financially Excluded", ex)]).filterMap
      (fun p => if p.2.length > 0 then some (segRowOf df p.1 p.2) else none)
  (df, Except.ok
    { digital_champions := dc.length
      mobile_only := mo.length
      traditional_banking := tb.length
      excluded := ex.length
      segment_table := table })

/-- Presentation data of the policy-insights view. -/
structure PolicyOutput where
  urban_inclusion : Option ℚ
  rural_inclusion : Option ℚ
  urban_rural_gap : Option ℚ
  excluded_rural_count : Nat
  mobile_advantage : Option ℚ
  rec1_target : Nat
  rec2_target : Nat
  rec3_target : Nat
deriving DecidableEq

/-- `show_policy_insights`: urban/rural inclusion gap, excluded-rural count,
mobile-vs-banking gap, and the three recommendation target populations. -/
def show_policy_insights (df : List Row) : List Row × Except ViewError PolicyOutput :=
  let urban := boolMean (df.filter (fun r => r.urban_rural == "Urban"))
    (fun r => r.any_formal_service)
  let rural := boolMean (df.filter (fun r => r.urban_rural == "Rural"))
    (fun r => r.any_formal_service)
  let ruralExcluded :=
    (df.filter (fun r => r.urban_rural == "Rural" && r.any_formal_service == false)).length
  (df, Except.ok
    { urban_inclusion := urban
      rural_inclusion := rural
      urban_rural_gap := osub urban rural
      excluded_rural_count := ruralExcluded
      mobile_advantage :=
        osub (boolMean df (fun r => r.uses_mobile_money))
          (boolMean df (fun r => r.has_bank_account))
      rec1_target := ruralExcluded
      rec2_target := (df.filter (fun r => decide (r.financial_literacy_score < 5))).length
      rec3_target := (df.filter (fun r => !r.uses_mobile_money)).length })

/-- Numeric index of a quintile label (`some "Qj" ↦ j`, anything else `0`). -/
def quintIdx : Option String → Nat
  | some "Q1" => 1
  | some "Q2" => 2
  | some "Q3" => 3
  | some "Q4" => 4
  | some "Q5" => 5
  | _ => 0

/-- Proof-level description of the `pd.qcut` bucket index of the element of
sorted rank `k` in an `n`-element strictly sorted income column. -/
def bucketIdx (n k : ℕ) : ℕ :=
  if k = 0 then 1
  else 1 + (if 1 * (n - 1) < 5 * k then 1 else 0) + (if 2 * (n - 1) < 5 * k then 1 else 0)
    + (if 3 * (n - 1) < 5 * k then 1 else 0) + (if 4 * (n - 1) < 5 * k then 1 else 0)

instance {ε α : Type} [DecidableEq ε] [DecidableEq α] : DecidableEq (Except ε α) :=
  fun a b =>
    match a, b with
    | Except.ok x, Except.ok y =>
        if h : x = y then isTrue (by rw [h]) else isFalse (fun hc => h (Except.ok.inj hc))
    | Except.error x, Except.error y =>
        if h : x = y then isTrue (by rw [h]) else isFalse (fun hc => h (Except.error.inj hc))
    | Except.ok _, Except.error _ => isFalse (fun hc => Except.noConfusion hc)
    | Except.error _, Except.ok _ => isFalse (fun hc => Except.noConfusion hc)

/-- Two-respondent input with distinct incomes 10 and 20: `pd.qcut` succeeds
(edges 10, 12, 14, 16, 18, 20), labels Q1 and Q5. -/
def demosW : List DemoRow :=
  [{ respondent_id := 1, province := "Kigali City", urban_rural := "Urban", age := 30,
     education := "Secondary", monthly_income_rwf := 10 },
   { respondent_id := 2, province := "Eastern", urban_rural := "Rural", age := 40,
     education := "Primary", monthly_income_rwf := 20 }]

/-- Service rows matching `demosW`. -/
def servsW : List ServiceRow :=
  [{ respondent_id := 1, has_bank_account := true, uses_mobile_money := false,
     has_savings := false, has_loan := false, uses_insurance := false,
     financial_literacy_score := 5 },
   { respondent_id := 2, has_bank_account := false, uses_mobile_money := true,
     has_savings := true, has_loan := true, uses_insurance := false,
     financial_literacy_score := 7 }]

/-- The prepared table for `demosW`/`servsW`. -/
def dfW : List Row := (prepare_analysis_data demosW servsW).toOption.getD []

/-- Three respondents with three distinct incomes 10, 20, 30 — fewer than five
distinct values, yet the quantile edges 10, 14, 18, 22, 26, 30 are unique. -/
def demos3 : List DemoRow :=
  [{ respondent_id := 1, province := "Kigali City", urban_rural := "Urban", age := 25,
     education := "Primary", monthly_income_rwf := 10 },
   { respondent_id := 2, province := "Eastern", urban_rural := "Rural", age := 35,
     education := "Primary", monthly_income_rwf := 20 },
   { respondent_id := 3, province := "Western", urban_rural := "Rural", age := 45,
     education := "Secondary", monthly_income_rwf := 30 }]

/-- Service rows matching `demos3`. -/
def servs3 : List ServiceRow :=
  [{ respondent_id := 1, has_bank_account := false, uses_mobile_money := true,
     has_savings := false, has_loan := false, uses_insurance := false,
     financial_literacy_score := 3 },
   { respondent_id := 2, has_bank_account := true, uses_mobile_money := false,
     has_savings := false, has_loan := false, uses_insurance := false,
     financial_literacy_score := 6 },
   { respondent_id := 3, has_bank_account := true, uses_mobile_money := true,
     has_savings := true, has_loan := false, uses_insurance := true,
     financial_literacy_score := 9 }]

/-- Two respondents with equal incomes: every quantile edge is 7, so
`pd.qcut` raises. -/
def demosEq : List DemoRow :=
  [{ respondent_id := 1, province := "Kigali City", urban_rural := "Urban", age := 30,
     education := "Primary", monthly_income_rwf := 7 },
   { respondent_id := 2, province := "Eastern", urban_rural := "Rural", age := 40,
     education := "Primary", monthly_income_rwf := 7 }]

/-- Service rows matching `demosEq`. -/
def servsEq : List ServiceRow :=
  [{ respondent_id := 1, has_bank_account := true, uses_mobile_money := false,
     has_savings := false, has_loan := false, uses_insurance := false,
     financial_literacy_score := 5 },
   { respondent_id := 2, has_bank_account := false, uses_mobile_money := false,
     has_savings := true, has_loan := false, uses_insurance := false,
     financial_literacy_score := 4 }]

/-- Ten respondents whose income column 1, 2, 2, 2, 4, 5, 6, 7, 8, 9 has a tie
straddling the first quintile boundary: `pd.qcut` succeeds (edges
1, 2, 16/5, 27/5, 36/5, 9) but bucket sizes come out 4, 0, 2, 2, 2. -/
def demosC3 : List DemoRow :=
  [{ respondent_id := 1, province := "Kigali City", urban_rural := "Urban", age := 21,
     education := "Primary", monthly_income_rwf := 1 },
   { respondent_id := 2, province := "Kigali City", urban_rural := "Urban", age := 22,
     education := "Primary", monthly_income_rwf := 2 },
   { respondent_id := 3, province := "Eastern", urban_rural := "Rural", age := 23,
     education := "Primary", monthly_income_rwf := 2 },
   { respondent_id := 4, province := "Eastern", urban_rural := "Rural", age := 24,
     education := "Primary", monthly_income_rwf := 2 },
   { respondent_id := 5, province := "Western", urban_rural := "Rural", age := 25,
     education := "Primary", monthly_income_rwf := 4 },
   { respondent_id := 6, province := "Western", urban_rural := "Rural", age := 26,
     education := "Primary", monthly_income_rwf := 5 },
   { respondent_id := 7, province := "Northern", urban_rural := "Rural", age := 27,
     education := "Primary", monthly_income_rwf := 6 },
   { respondent_id := 8, province := "Northern", urban_rural := "Urban", age := 28,
     education := "Primary", monthly_income_rwf := 7 },
   { respondent_id := 9, province := "Southern", urban_rural := "Rural", age := 29,
     education := "Primary", monthly_income_rwf := 8 },
   { respondent_id := 10, province := "Southern", urban_rural := "Urban", age := 30,
     education := "Primary", monthly_income_rwf := 9 }]

/-- Service rows matching `demosC3` (flags irrelevant to the quintile claim). -/
def servsC3 : List ServiceRow :=
  (List.range 10).map (fun i =>
    { respondent_id := i + 1, has_bank_account := false, uses_mobile_money := true,
      has_savings := false, has_loan := false, uses_insurance := false,
      financial_literacy_score := 5 })

/-- A single merged row over the upper age limit 100 of `pd.cut`, with all
service flags off. -/
def rowA : Row :=
  { respondent_id := 1, province := "Kigali City", urban_rural := "Urban", age := 101,
    education := "Primary", monthly_income_rwf := 10, has_bank_account := false,
    uses_mobile_money := false, has_savings := false, has_loan := false,
    uses_insurance := false, financial_literacy_score := 4, any_formal_service := false,
    income_quintile := some "Q1", age_group := none, service_count := none }

/-- A single merged row with an in-range age, fresh from preparation
(`age_group` and `service_count` still absent). -/
def rowB : Row :=
  { respondent_id := 2, province := "Eastern", urban_rural := "Rural", age := 30,
    education := "Secondary", monthly_income_rwf := 20, has_bank_account := true,
    uses_mobile_money := true, has_savings := false, has_loan := false,
    uses_insurance := false, financial_literacy_score := 6, any_formal_service := true,
    income_quintile := some "Q3", age_group := none, service_count := none }

theorem applyFilters_sublist (df : List Row) (ps : List String) (ur : String) :
    (applyFilters df ps ur).Sublist df := by
  simp only [applyFilters]
  split
  · exact (List.filter_sublist _).trans (List.filter_sublist _)
  · exact List.filter_sublist _

theorem applyFilters_empty_provinces (df : List Row) (ur : String) :
    applyFilters df [] ur = [] := by
  simp only [applyFilters]
  have h : df.filter (fun r => ([] : List String).contains r.province) = [] := by
    apply List.filter_eq_nil_iff.mpr
    intro a _
    rw [show (([] : List String).contains a.province) = false from rfl]
    exact Bool.false_ne_true
  rw [h]
  split <;> simp

/-- C1: for every row of the prepared merged table, the derived
`any_formal_service` flag is true iff at least one of `has_bank_account`,
`uses_mobile_money`, `has_savings` is true for that row. -/
theorem claim_C1 (demos : List DemoRow) (servs : List ServiceRow) (df : List Row)
    (hok : prepare_analysis_data demos servs = Except.ok df) :
    ∀ r ∈ df, r.any_formal_service =
      (r.has_bank_account || r.uses_mobile_money || r.has_savings) := by
  rw [prepare_analysis_data] at hok
  split at hok
  · injection hok with h
    subst h
    intro r hr
    obtain ⟨p, _, rfl⟩ := List.mem_map.mp hr
    rfl
  · exact Except.noConfusion hok

/-- Witness for C1: the hypothesis holds and the conclusion evaluates on the
concrete two-row input. -/
theorem claim_C1_witness :
    prepare_analysis_data demosW servsW = Except.ok dfW ∧
      (dfW.headD default).any_formal_service =
        ((dfW.headD default).has_bank_account || (dfW.headD default).uses_mobile_money
          || (dfW.headD default).has_savings) :=
  ⟨by with_unfolding_all rfl,
   claim_C1 demosW servsW dfW (by with_unfolding_all rfl) (dfW.headD default)
     (by with_unfolding_all decide)⟩

theorem seg_filter_lengths (df : List Row) :
    (df.filter isDigitalChampion).length + (df.filter isMobileOnly).length
      + (df.filter isTraditionalBanking).length + (df.filter isExcludedSeg).length
      = df.length := by
  induction df with
  | nil => rfl
  | cons r t ih =>
    simp only [List.filter_cons]
    cases hb : r.has_bank_account <;> cases hm : r.uses_mobile_money <;>
      simp [isDigitalChampion, isMobileOnly, isTraditionalBanking, isExcludedSeg, hb, hm] <;>
      omega

/-- C5: the four market segments are pairwise disjoint and jointly exhaustive:
every row lies in exactly one of the four `(has_bank_account,
uses_mobile_money)` segments, and the four segment sizes reported by
`show_market_segments` sum to the number of rows of the filtered view. -/
theorem claim_C5 (df : List Row) :
    (show_market_segments df).2.map
        (fun o => o.digital_champions + o.mobile_only + o.traditional_banking + o.excluded)
      = Except.ok df.length
    ∧ ∀ r : Row,
        ((if isDigitalChampion r then 1 else 0) + (if isMobileOnly r then 1 else 0)
          + (if isTraditionalBanking r then 1 else 0)
          + (if isExcludedSeg r then 1 else 0)) = 1 := by
  constructor
  · show Except.ok _ = Except.ok df.length
    rw [← seg_filter_lengths df]
  · intro r
    cases hb : r.has_bank_account <;> cases hm : r.uses_mobile_money <;>
      simp [isDigitalChampion, isMobileOnly, isTraditionalBanking, isExcludedSeg, hb, hm]

/-- C6: `applyFilters` keeps exactly the rows whose province is selected and
(unless the urban/rural filter is the no-op `"All"`) whose `urban_rural`
value equals the selection exactly; an empty province selection yields the
empty view whatever the urban/rural setting; the result is a sublist of the
input (rows kept unchanged, in order). -/
theorem claim_C6 (df : List Row) (provinces : List String) (urbanRural : String) :
    (∀ r, r ∈ applyFilters df provinces urbanRural ↔
        (r ∈ df ∧ r.province ∈ provinces ∧ (urbanRural = "All" ∨ r.urban_rural = urbanRural)))
    ∧ applyFilters df [] urbanRural = []
    ∧ (applyFilters df provinces urbanRural).Sublist df := by
  refine ⟨?_, applyFilters_empty_provinces df urbanRural, applyFilters_sublist df provinces urbanRural⟩
  intro r
  simp only [applyFilters]
  by_cases h : urbanRural = "All"
  · subst h
    simp [List.mem_filter, List.elem_iff]
  · have hb : (urbanRural != "All") = true := by
      simpa [bne_iff_ne] using h
    simp only [hb, if_true, List.mem_filter, List.elem_iff]
    constructor
    · rintro ⟨⟨hmem, hprov⟩, hur⟩
      exact ⟨hmem, hprov, Or.inr (by simpa using hur)⟩
    · rintro ⟨hmem, hprov, hur⟩
      rcases hur with hur | hur
      · exact absurd hur h
      · exact ⟨⟨hmem, hprov⟩, by simpa using hur⟩

/-- C2 counterexample: on the empty filtered view the market-segmentation
view does not raise `EmptyInputError` (nor anything else); it returns four
zero-sized segments and an empty characteristics table. -/
theorem claim_C2_counterexample :
    (show_market_segments ([] : List Row)).2
        = Except.ok ({ digital_champions := 0, mobile_only := 0, traditional_banking := 0,
                       excluded := 0, segment_table := [] } : SegOutput)
    ∧ (show_market_segments ([] : List Row)).2 ≠ Except.error ViewError.emptyInputError := by
  constructor
  · rfl
  · intro h
    exact Except.noConfusion (Eq.trans (Eq.symm (rfl :
      (show_market_segments ([] : List Row)).2
        = Except.ok ({ digital_champions := 0, mobile_only := 0, traditional_banking := 0,
                       excluded := 0, segment_table := [] } : SegOutput))) h)

/-- C2 amended: an empty province selection filters every row out, and on the
resulting empty view no aggregation raises `EmptyInputError` — the executive
overview raises `ZeroDivisionError` (from `excluded_count/len(df)`), while
the other five views complete without error (their means are NaN). -/
theorem claim_C2 :
    (∀ (df : List Row) (ur : String), applyFilters df [] ur = [])
    ∧ (show_executive_overview ([] : List Row)).2 = Except.error ViewError.zeroDivisionError
    ∧ (show_demographic_analysis ([] : List Row)).2.isOk = true
    ∧ (show_provincial_analysis ([] : List Row)).2.isOk = true
    ∧ (show_service_usage ([] : List Row)).2.isOk = true
    ∧ (show_market_segments ([] : List Row)).2.isOk = true
    ∧ (show_policy_insights ([] : List Row)).2.isOk = true := by
  refine ⟨applyFilters_empty_provinces, rfl, rfl, rfl, rfl, rfl, rfl⟩

/-- C4 counterexample: both cited views mutate the filtered view they are
given — the demographic view adds the `age_group` column, the service-usage
view adds `service_count`. -/
theorem claim_C4_counterexample :
    (show_demographic_analysis [rowB]).1 ≠ [rowB]
    ∧ (show_service_usage [rowB]).1 ≠ [rowB] := by
  constructor <;> with_unfolding_all decide

/-- C4 amended: `applyFilters` returns a sublist of unmodified rows, and four
of the six views return their input frame untouched; but
`show_demographic_analysis` hands back the frame with the `age_group` column
assigned, and `show_service_usage` with `service_count` assigned (no rows
added or removed, no other field changed). -/
theorem claim_C4 (df : List Row) (provinces : List String) (urbanRural : String) :
    (applyFilters df provinces urbanRural).Sublist df
    ∧ (show_executive_overview df).1 = df
    ∧ (show_provincial_analysis df).1 = df
    ∧ (show_market_segments df).1 = df
    ∧ (show_policy_insights df).1 = df
    ∧ (show_demographic_analysis df).1 = df.map (fun r => { r with age_group := ageGroupOf r.age })
    ∧ (show_service_usage df).1 = df.map (fun r => { r with service_count := some (svcCount r) }) :=
  ⟨applyFilters_sublist df provinces urbanRural, rfl, rfl, rfl, rfl, rfl, rfl⟩

theorem cutLabel_false (edges : List ℚ) (labels : List String) (v : ℚ) :
    cutLabel false edges labels v =
      if cutIds edges v = 0 ∨ cutIds edges v = edges.length then none
      else some (labels.getD (cutIds edges v - 1) "") := rfl

/-- C9 counterexample: a respondent aged 101 falls outside the last `pd.cut`
bin `(55, 100]` and gets no age group at all (NaN), not `"56+"`; likewise an
age of exactly 0 falls outside the first bin `(0, 25]`. -/
theorem claim_C9_counterexample :
    ((show_demographic_analysis [rowA]).1.map (fun r => r.age_group)) = [none]
    ∧ ageGroupOf 101 = none
    ∧ ageGroupOf 101 ≠ some "56+"
    ∧ ageGroupOf 0 = none := by
  refine ⟨?_, ?_, ?_, ?_⟩ <;> with_unfolding_all decide

/-- C9 amended: `age_group` is the fixed-boundary bucketing of age with the
right-closed bins `(0,25], (25,35], (35,45], (45,55], (55,100]` labelled
`"18-25"`, `"26-35"`, `"36-45"`, `"46-55"`, `"56+"`; ages at most 0 or
greater than 100 are assigned no bucket (missing value), so the last bucket
has upper limit 100 rather than no upper limit. -/
theorem claim_C9 (a : Int) :
    ageGroupOf a =
      (if 0 < a ∧ a ≤ 25 then some "18-25"
       else if 25 < a ∧ a ≤ 35 then some "26-35"
       else if 35 < a ∧ a ≤ 45 then some "36-45"
       else if 45 < a ∧ a ≤ 55 then some "46-55"
       else if 55 < a ∧ a ≤ 100 then some "56+"
       else none) := by
  have h0 : ((0 : ℚ) < (a : ℚ)) ↔ 0 < a := by norm_cast
  have h25 : ((25 : ℚ) < (a : ℚ)) ↔ 25 < a := by norm_cast
  have h35 : ((35 : ℚ) < (a : ℚ)) ↔ 35 < a := by norm_cast
  have h45 : ((45 : ℚ) < (a : ℚ)) ↔ 45 < a := by norm_cast
  have h55 : ((55 : ℚ) < (a : ℚ)) ↔ 55 < a := by norm_cast
  have h100 : ((100 : ℚ) < (a : ℚ)) ↔ 100 < a := by norm_cast
  rw [ageGroupOf, cutLabel_false]
  simp only [cutIds, List.countP_cons, List.countP_nil, decide_eq_true_eq,
    h0, h25, h35, h45, h55, h100, List.length_cons, List.length_nil]
  by_cases ha0 : a ≤ 0
  · simp only [if_neg (show ¬((0:ℤ) < a) by omega), if_neg (show ¬((25:ℤ) < a) by omega),
      if_neg (show ¬((35:ℤ) < a) by omega), if_neg (show ¬((45:ℤ) < a) by omega),
      if_neg (show ¬((55:ℤ) < a) by omega), if_neg (show ¬((100:ℤ) < a) by omega),
      if_neg (show ¬(0 < a ∧ a ≤ 25) by omega), if_neg (show ¬(25 < a ∧ a ≤ 35) by omega),
      if_neg (show ¬(35 < a ∧ a ≤ 45) by omega), if_neg (show ¬(45 < a ∧ a ≤ 55) by omega),
      if_neg (show ¬(55 < a ∧ a ≤ 100) by omega)]
    rfl
  by_cases ha25 : a ≤ 25
  · simp only [if_pos (show (0:ℤ) < a by omega), if_neg (show ¬((25:ℤ) < a) by omega),
      if_neg (show ¬((35:ℤ) < a) by omega), if_neg (show ¬((45:ℤ) < a) by omega),
      if_neg (show ¬((55:ℤ) < a) by omega), if_neg (show ¬((100:ℤ) < a) by omega),
      if_pos (show 0 < a ∧ a ≤ 25 by omega)]
    rfl
  by_cases ha35 : a ≤ 35
  · simp only [if_pos (show (0:ℤ) < a by omega), if_pos (show (25:ℤ) < a by omega),
      if_neg (show ¬((35:ℤ) < a) by omega), if_neg (show ¬((45:ℤ) < a) by omega),
      if_neg (show ¬((55:ℤ) < a) by omega), if_neg (show ¬((100:ℤ) < a) by omega),
      if_neg (show ¬(0 < a ∧ a ≤ 25) by omega), if_pos (show 25 < a ∧ a ≤ 35 by omega)]
    rfl
  by_cases ha45 : a ≤ 45
  · simp only [if_pos (show (0:ℤ) < a by omega), if_pos (show (25:ℤ) < a by omega),
      if_pos (show (35:ℤ) < a by omega), if_neg (show ¬((45:ℤ) < a) by omega),
      if_neg (show ¬((55:ℤ) < a) by omega), if_neg (show ¬((100:ℤ) < a) by omega),
      if_neg (show ¬(0 < a ∧ a ≤ 25) by omega), if_neg (show ¬(25 < a ∧ a ≤ 35) by omega),
      if_pos (show 35 < a ∧ a ≤ 45 by omega)]
    rfl
  by_cases ha55 : a ≤ 55
  · simp only [if_pos (show (0:ℤ) < a by omega), if_pos (show (25:ℤ) < a by omega),
      if_pos (show (35:ℤ) < a by omega), if_pos (show (45:ℤ) < a by omega),
      if_neg (show ¬((55:ℤ) < a) by omega), if_neg (show ¬((100:ℤ) < a) by omega),
      if_neg (show ¬(0 < a ∧ a ≤ 25) by omega), if_neg (show ¬(25 < a ∧ a ≤ 35) by omega),
      if_neg (show ¬(35 < a ∧ a ≤ 45) by omega), if_pos (show 45 < a ∧ a ≤ 55 by omega)]
    rfl
  by_cases ha100 : a ≤ 100
  · simp only [if_pos (show (0:ℤ) < a by omega), if_pos (show (25:ℤ) < a by omega),
      if_pos (show (35:ℤ) < a by omega), if_pos (show (45:ℤ) < a by omega),
      if_pos (show (55:ℤ) < a by omega), if_neg (show ¬((100:ℤ) < a) by omega),
      if_neg (show ¬(0 < a ∧ a ≤ 25) by omega), if_neg (show ¬(25 < a ∧ a ≤ 35) by omega),
      if_neg (show ¬(35 < a ∧ a ≤ 45) by omega), if_neg (show ¬(45 < a ∧ a ≤ 55) by omega),
      if_pos (show 55 < a ∧ a ≤ 100 by omega)]
    rfl
  · simp only [if_pos (show (0:ℤ) < a by omega), if_pos (show (25:ℤ) < a by omega),
      if_pos (show (35:ℤ) < a by omega), if_pos (show (45:ℤ) < a by omega),
      if_pos (show (55:ℤ) < a by omega), if_pos (show (100:ℤ) < a by omega),
      if_neg (show ¬(0 < a ∧ a ≤ 25) by omega), if_neg (show ¬(25 < a ∧ a ≤ 35) by omega),
      if_neg (show ¬(35 < a ∧ a ≤ 45) by omega), if_neg (show ¬(45 < a ∧ a ≤ 55) by omega),
      if_neg (show ¬(55 < a ∧ a ≤ 100) by omega)]
    rfl

/-- C10 counterexample: an income column with only three distinct values
10, 20, 30 does not make the quintile computation fail — `pd.qcut` computes
the six distinct edges 10, 14, 18, 22, 26, 30 and succeeds, labelling the
rows Q1, Q3, Q5 (buckets Q2 and Q4 stay empty). -/
theorem claim_C10_counterexample :
    ((demos3.map (fun d => d.monthly_income_rwf)).dedup.length = 3)
    ∧ (prepare_analysis_data demos3 servs3).isOk = true
    ∧ (prepare_analysis_data demos3 servs3).map (fun df => df.map (fun r => r.income_quintile))
        = Except.ok [some "Q1", some "Q3", some "Q5"] := by
  refine ⟨?_, ?_, ?_⟩ <;> with_unfolding_all decide

theorem quantileAt_const (s : List ℚ) (v : ℚ) (hne : s ≠ []) (hall : ∀ x ∈ s, x = v)
    (p : ℚ) (hp0 : 0 ≤ p) (hp1 : p ≤ 1) : quantileAt s p = v := by
  have hn : 0 < s.length := List.length_pos.mpr hne
  have hn1 : (1 : ℚ) ≤ (s.length : ℚ) := by exact_mod_cast hn
  simp only [quantileAt]
  set t := p * ((s.length : ℚ) - 1) with ht
  have ht0 : 0 ≤ t := mul_nonneg hp0 (by linarith)
  have htle : t ≤ (s.length : ℚ) - 1 := by
    calc t = p * ((s.length : ℚ) - 1) := ht
    _ ≤ 1 * ((s.length : ℚ) - 1) := mul_le_mul_of_nonneg_right hp1 (by linarith)
    _ = (s.length : ℚ) - 1 := one_mul _
  have hfl : ⌊t⌋ ≤ (s.length : ℤ) - 1 := by
    have h2 : ⌊((s.length : ℚ) - 1)⌋ = (s.length : ℤ) - 1 := by
      rw [show ((s.length : ℚ) - 1) = (((s.length : ℤ) - 1 : ℤ) : ℚ) by push_cast; ring]
      exact Int.floor_intCast _
    calc ⌊t⌋ ≤ ⌊((s.length : ℚ) - 1)⌋ := Int.floor_le_floor htle
    _ = (s.length : ℤ) - 1 := h2
  have hf : ⌊t⌋.toNat < s.length := by omega
  have ha : s.getD (⌊t⌋.toNat) 0 = v := by
    rw [List.getD_eq_getElem s 0 hf]
    exact hall _ (List.getElem_mem hf)
  rw [ha]
  by_cases hb : ⌊t⌋.toNat + 1 < s.length
  · rw [List.getD_eq_getElem s v hb]
    rw [hall _ (List.getElem_mem hb)]
    ring
  · rw [List.getD_eq_default]
    · ring
    · omega

/-- C10 amended: preparation fails exactly when the six computed quantile
edges of the income column are not pairwise distinct (pandas raises
`ValueError: Bin edges must be unique`, not an `InsufficientDataError`); in
particular it fails whenever all incomes are equal, while a column with
only three distinct, spread-out values succeeds. -/
theorem claim_C10 (demos : List DemoRow) (servs : List ServiceRow) :
    ((prepare_analysis_data demos servs).isOk = true ↔
      (quantiles5 (incomesOf demos servs)).Nodup)
    ∧ (∀ (v : ℚ) (vs : List ℚ), incomesOf demos servs = v :: vs → (∀ u ∈ vs, u = v) →
        (prepare_analysis_data demos servs).isOk = false) := by
  constructor
  · rw [prepare_analysis_data]
    split
    · rename_i h
      simp [Except.isOk, Except.toBool, h]
    · rename_i h
      simp [Except.isOk, Except.toBool, h]
  · intro v vs hcol hall
    rw [prepare_analysis_data]
    split
    · rename_i hnd
      exfalso
      have hconst : ∀ x ∈ incomesOf demos servs, x = v := by
        rw [hcol]
        intro u hu
        rcases List.mem_cons.mp hu with h | h
        · exact h
        · exact hall u h
      have hne : incomesOf demos servs ≠ [] := by
        rw [hcol]; exact List.cons_ne_nil v vs
      have hsne : List.insertionSort (· ≤ ·) (incomesOf demos servs) ≠ [] := by
        intro h
        apply hne
        have hl := List.length_insertionSort (· ≤ ·) (incomesOf demos servs)
        rw [h] at hl
        exact List.length_eq_zero.mp hl.symm
      have hsconst : ∀ x ∈ List.insertionSort (· ≤ ·) (incomesOf demos servs), x = v :=
        fun x hx => hconst x ((List.mem_insertionSort _).mp hx)
      have hedges : ∀ e ∈ quantiles5 (incomesOf demos servs), e = v := by
        intro e he
        rw [quantiles5] at he
        obtain ⟨p, hp, rfl⟩ := List.mem_map.mp he
        have hp' : 0 ≤ p ∧ p ≤ 1 := by
          rw [probs5] at hp
          simp only [List.mem_map, List.mem_range] at hp
          obtain ⟨i, hi6, rfl⟩ := hp
          refine ⟨by positivity, ?_⟩
          rw [div_le_one (by norm_num)]
          have hi5 : i ≤ 5 := by omega
          exact_mod_cast hi5
        exact quantileAt_const _ v hsne hsconst p hp'.1 hp'.2
      have hlen : (quantiles5 (incomesOf demos servs)).length = 6 := by
        rw [quantiles5, List.length_map]
        rfl
      have h0 : (quantiles5 (incomesOf demos servs)).getD 0 0 = v := by
        rw [List.getD_eq_getElem _ 0 (by omega)]
        exact hedges _ (List.getElem_mem (by omega))
      have h1 : (quantiles5 (incomesOf demos servs)).getD 1 0 = v := by
        rw [List.getD_eq_getElem _ 0 (by omega)]
        exact hedges _ (List.getElem_mem (by omega))
      have h900 : (0 : ℕ) < (quantiles5 (incomesOf demos servs)).length := by omega
      have h901 : (1 : ℕ) < (quantiles5 (incomesOf demos servs)).length := by omega
      have hne01 := List.pairwise_iff_getElem.mp hnd 0 1 h900 h901 (by omega)
      rw [List.getD_eq_getElem _ 0 h900] at h0
      rw [List.getD_eq_getElem _ 0 h901] at h1
      exact hne01 (h0.trans h1.symm)
    · rfl

theorem svcCount_le_five (r : Row) : svcCount r ≤ 5 := by
  unfold svcCount
  split_ifs <;> norm_num

/-- C8 counterexample: on a one-row view whose respondent uses no service,
`value_counts().sort_index()` yields the single bucket `(0, 1)` — the six
buckets 0..5 are not all present; empty buckets are dropped. -/
theorem claim_C8_counterexample :
    (show_service_usage [rowA]).2.map (fun o => o.service_dist) = Except.ok [(0, 1)]
    ∧ (show_service_usage [rowA]).2.map (fun o => o.service_dist.length) = Except.ok 1 := by
  constructor <;> with_unfolding_all decide

/-- C8 amended: the service-count distribution lists exactly the observed
`service_count` values, in strictly ascending order, each with its positive
occurrence count (all values are at most 5); buckets whose count would be
zero are omitted rather than reported. -/
theorem claim_C8 (df : List Row) (d : List (Nat × Nat))
    (hd : (show_service_usage df).2.map (fun o => o.service_dist) = Except.ok d) :
    List.Chain' (· < ·) (d.map Prod.fst)
    ∧ (∀ vc ∈ d, vc.2 = (df.map svcCount).count vc.1 ∧ 0 < vc.2 ∧ vc.1 ≤ 5)
    ∧ (∀ v : Nat, 0 < (df.map svcCount).count v → v ∈ d.map Prod.fst) := by
  simp only [show_service_usage, Except.map] at hd
  injection hd with hd
  subst hd
  have hc : (df.map (fun r => ({ r with service_count := some (svcCount r) } : Row))).map
      (fun r => r.service_count.getD 0) = df.map svcCount := by
    rw [List.map_map]
    rfl
  rw [hc]
  have hfst : ((((List.insertionSort (· ≤ ·) (df.map svcCount)).dedup).map
      (fun v => (v, (df.map svcCount).count v))).map Prod.fst)
      = (List.insertionSort (· ≤ ·) (df.map svcCount)).dedup := by
    rw [List.map_map]
    exact List.map_id _
  have hsorted : List.Pairwise (· < ·) ((List.insertionSort (· ≤ ·) (df.map svcCount)).dedup) := by
    have h1 : List.Pairwise (· ≤ ·) ((List.insertionSort (· ≤ ·) (df.map svcCount)).dedup) :=
      List.Pairwise.sublist (List.dedup_sublist _) (List.sorted_insertionSort _ _)
    have h2 : List.Pairwise (· ≠ ·) ((List.insertionSort (· ≤ ·) (df.map svcCount)).dedup) :=
      List.nodup_dedup _
    exact (h1.and h2).imp (fun h => lt_of_le_of_ne h.1 h.2)
  refine ⟨?_, ?_, ?_⟩
  · rw [hfst]
    exact List.chain'_iff_pairwise.mpr hsorted
  · intro vc hvc
    obtain ⟨v, hv, rfl⟩ := List.mem_map.mp hvc
    have hvmem : v ∈ df.map svcCount :=
      (List.mem_insertionSort _).mp (List.mem_dedup.mp hv)
    refine ⟨rfl, List.count_pos_iff.mpr hvmem, ?_⟩
    obtain ⟨r, _, rfl⟩ := List.mem_map.mp hvmem
    exact svcCount_le_five r
  · intro v hv
    rw [hfst]
    exact List.mem_dedup.mpr ((List.mem_insertionSort _).mpr (List.count_pos_iff.mp hv))

/-- Witness for C8: the hypothesis holds on the one-row view and the
characterization evaluates there. -/
theorem claim_C8_witness :
    ((show_service_usage [rowA]).2.map (fun o => o.service_dist) = Except.ok [(0, 1)])
    ∧ (List.Chain' (· < ·) ([((0 : Nat), (1 : Nat))].map Prod.fst)
        ∧ (∀ vc ∈ [((0 : Nat), (1 : Nat))],
            vc.2 = ([rowA].map svcCount).count vc.1 ∧ 0 < vc.2 ∧ vc.1 ≤ 5)
        ∧ (∀ v : Nat, 0 < ([rowA].map svcCount).count v → v ∈ [((0 : Nat), (1 : Nat))].map Prod.fst)) :=
  ⟨by with_unfolding_all decide,
   claim_C8 [rowA] [(0, 1)] (by with_unfolding_all decide)⟩

/-- Witness for C10: on the all-equal two-income input the hypotheses hold
and preparation indeed fails. -/
theorem claim_C10_witness :
    incomesOf demosEq servsEq = 7 :: [7]
    ∧ (∀ u ∈ [(7 : ℚ)], u = 7)
    ∧ (prepare_analysis_data demosEq servsEq).isOk = false :=
  ⟨by with_unfolding_all rfl, by decide,
   (claim_C10 demosEq servsEq).2 7 [7] (by with_unfolding_all rfl) (by decide)⟩

/-- C3 counterexample: with the tied income column 1, 2, 2, 2, 4, 5, 6, 7, 8, 9
(N = 10, so every quintile should have 2 rows), `pd.qcut` puts all three tied
incomes in Q1: the bucket sizes come out 4, 0, 2, 2, 2 — not a partition into
five groups of ⌊N/5⌋/⌈N/5⌉, and ties are not broken by row order. -/
theorem claim_C3_counterexample :
    (prepare_analysis_data demosC3 servsC3).map (fun df => df.length) = Except.ok 10
    ∧ (prepare_analysis_data demosC3 servsC3).map
        (fun df => df.countP (fun r => r.income_quintile == some "Q1")) = Except.ok 4
    ∧ (prepare_analysis_data demosC3 servsC3).map
        (fun df => df.countP (fun r => r.income_quintile == some "Q2")) = Except.ok 0 := by
  refine ⟨?_, ?_, ?_⟩ <;> with_unfolding_all decide

theorem el_le_quantile_iff (s : List ℚ) (hS : List.Pairwise (· < ·) s) (hn : 2 ≤ s.length)
    (j k : ℕ) (hj : j ≤ 5) (hk : k < s.length) :
    s.getD k 0 ≤ quantileAt s ((j : ℚ) / 5) ↔
      (k : ℚ) ≤ (j : ℚ) / 5 * ((s.length : ℚ) - 1) := by
  have hmono : ∀ {a b : ℕ}, a < b → b < s.length → s.getD a 0 < s.getD b 0 := by
    intro a b hab hb
    rw [List.getD_eq_getElem s 0 (lt_trans hab hb), List.getD_eq_getElem s 0 hb]
    exact List.pairwise_iff_getElem.mp hS a b _ _ hab
  have hmono' : ∀ {a b : ℕ}, a ≤ b → b < s.length → s.getD a 0 ≤ s.getD b 0 := by
    intro a b hab hb
    rcases Nat.lt_or_ge a b with h | h
    · exact le_of_lt (hmono h hb)
    · have hab2 : a = b := le_antisymm hab h
      rw [hab2]
  unfold quantileAt
  set t := (j : ℚ) / 5 * ((s.length : ℚ) - 1) with ht
  have hn1 : (1 : ℚ) ≤ (s.length : ℚ) := by exact_mod_cast (by omega : 1 ≤ s.length)
  have ht0 : 0 ≤ t := mul_nonneg (by positivity) (by linarith)
  have htle : t ≤ (s.length : ℚ) - 1 := by
    rw [ht]
    have hj1 : (j : ℚ) / 5 ≤ 1 := by
      rw [div_le_one (by norm_num)]
      exact_mod_cast hj
    calc (j : ℚ) / 5 * ((s.length : ℚ) - 1)
        ≤ 1 * ((s.length : ℚ) - 1) := mul_le_mul_of_nonneg_right hj1 (by linarith)
    _ = (s.length : ℚ) - 1 := one_mul _
  have hfz : 0 ≤ ⌊t⌋ := Int.floor_nonneg.mpr ht0
  set f := ⌊t⌋.toNat with hf
  have hfcast : ((f : ℕ) : ℚ) = ((⌊t⌋ : ℤ) : ℚ) := by
    rw [hf]
    norm_cast
    omega
  have hfle : (f : ℚ) ≤ t := by rw [hfcast]; exact Int.floor_le t
  have hflt : t < (f : ℚ) + 1 := by rw [hfcast]; exact Int.lt_floor_add_one t
  have hfn : f ≤ s.length - 1 := by
    have h2 : ⌊t⌋ ≤ (s.length : ℤ) - 1 := by
      have h3 : ⌊((s.length : ℚ) - 1)⌋ = (s.length : ℤ) - 1 := by
        rw [show ((s.length : ℚ) - 1) = (((s.length : ℤ) - 1 : ℤ) : ℚ) by push_cast; ring]
        exact Int.floor_intCast _
      calc ⌊t⌋ ≤ ⌊((s.length : ℚ) - 1)⌋ := Int.floor_le_floor htle
      _ = (s.length : ℤ) - 1 := h3
    omega
  by_cases hfrac : (f : ℚ) = t
  · have hzero : t - (f : ℚ) = 0 := by rw [hfrac]; ring
    rw [hzero, zero_mul, add_zero]
    constructor
    · intro h
      by_contra hc
      push_neg at hc
      have hfk : f < k := by
        have hq : (f : ℚ) < (k : ℚ) := by rw [hfrac]; exact hc
        exact_mod_cast hq
      have h2 := hmono hfk hk
      linarith
    · intro h
      have hkf : k ≤ f := by
        have hq : (k : ℚ) ≤ (f : ℚ) := by rw [hfrac]; exact h
        exact_mod_cast hq
      exact hmono' hkf (by omega)
  · have hlt : (f : ℚ) < t := lt_of_le_of_ne hfle hfrac
    have hfn2 : f + 1 ≤ s.length - 1 := by
      by_contra hc
      have hfe : f = s.length - 1 := by omega
      have h4 : ((s.length : ℚ) - 1) < t := by
        have h5 : ((f : ℚ)) = (s.length : ℚ) - 1 := by
          rw [hfe]
          push_cast [Nat.cast_sub (by omega : 1 ≤ s.length)]
          ring
        linarith
      linarith
    have hbk : f + 1 < s.length := by omega
    have hab : s.getD f 0 < s.getD (f + 1) 0 := hmono (Nat.lt_succ_self f) hbk
    have hinr : s.getD (f + 1) (s.getD f 0) = s.getD (f + 1) 0 := by
      rw [List.getD_eq_getElem s _ hbk, List.getD_eq_getElem s 0 hbk]
    rw [hinr]
    have hq1 : s.getD f 0 < s.getD f 0 + (t - (f : ℚ)) * (s.getD (f + 1) 0 - s.getD f 0) := by
      nlinarith
    have hq2 : s.getD f 0 + (t - (f : ℚ)) * (s.getD (f + 1) 0 - s.getD f 0)
        < s.getD (f + 1) 0 := by
      nlinarith
    constructor
    · intro h
      by_contra hc
      push_neg at hc
      have hk1 : f + 1 ≤ k := by
        have h6 : ⌊t⌋ < (k : ℤ) := Int.floor_lt.mpr (by exact_mod_cast hc)
        omega
      have h7 : s.getD (f + 1) 0 ≤ s.getD k 0 := hmono' hk1 hk
      linarith
    · intro h
      have hkf : k ≤ f := by
        have h8 : (k : ℤ) ≤ ⌊t⌋ := Int.le_floor.mpr (by exact_mod_cast h)
        omega
      have h9 : s.getD k 0 ≤ s.getD f 0 := hmono' hkf (by omega)
      linarith

theorem quantile_strictMono (s : List ℚ) (hS : List.Pairwise (· < ·) s) (hn : 2 ≤ s.length)
    {p q : ℚ} (hp0 : 0 ≤ p) (hpq : p < q) (hq1 : q ≤ 1) :
    quantileAt s p < quantileAt s q := by
  have hmono : ∀ {a b : ℕ}, a < b → b < s.length → s.getD a 0 < s.getD b 0 := by
    intro a b hab hb
    rw [List.getD_eq_getElem s 0 (lt_trans hab hb), List.getD_eq_getElem s 0 hb]
    exact List.pairwise_iff_getElem.mp hS a b _ _ hab
  have hmono' : ∀ {a b : ℕ}, a ≤ b → b < s.length → s.getD a 0 ≤ s.getD b 0 := by
    intro a b hab hb
    rcases Nat.lt_or_ge a b with h | h
    · exact le_of_lt (hmono h hb)
    · have hab2 : a = b := le_antisymm hab h
      rw [hab2]
  unfold quantileAt
  set t := p * ((s.length : ℚ) - 1) with ht
  set u := q * ((s.length : ℚ) - 1) with hu
  have hn1 : (1 : ℚ) ≤ (s.length : ℚ) := by exact_mod_cast (by omega : 1 ≤ s.length)
  have ht0 : 0 ≤ t := mul_nonneg hp0 (by linarith)
  have htu : t < u := by
    rw [ht, hu]
    have h2 : (2 : ℚ) ≤ (s.length : ℚ) := by exact_mod_cast hn
    apply mul_lt_mul_of_pos_right hpq
    linarith
  have hule : u ≤ (s.length : ℚ) - 1 := by
    rw [hu]
    calc q * ((s.length : ℚ) - 1) ≤ 1 * ((s.length : ℚ) - 1) :=
      mul_le_mul_of_nonneg_right hq1 (by linarith)
    _ = (s.length : ℚ) - 1 := one_mul _
  have hu0 : 0 ≤ u := le_of_lt (lt_of_le_of_lt ht0 htu)
  have hfz : 0 ≤ ⌊t⌋ := Int.floor_nonneg.mpr ht0
  have hgz : 0 ≤ ⌊u⌋ := Int.floor_nonneg.mpr hu0
  set f := ⌊t⌋.toNat with hf
  set g := ⌊u⌋.toNat with hg
  have hfcast : ((f : ℕ) : ℚ) = ((⌊t⌋ : ℤ) : ℚ) := by rw [hf]; norm_cast; omega
  have hgcast : ((g : ℕ) : ℚ) = ((⌊u⌋ : ℤ) : ℚ) := by rw [hg]; norm_cast; omega
  have hfle : (f : ℚ) ≤ t := by rw [hfcast]; exact Int.floor_le t
  have hflt : t < (f : ℚ) + 1 := by rw [hfcast]; exact Int.lt_floor_add_one t
  have hgle : (g : ℚ) ≤ u := by rw [hgcast]; exact Int.floor_le u
  have hglt : u < (g : ℚ) + 1 := by rw [hgcast]; exact Int.lt_floor_add_one u
  have hfg : f ≤ g := by
    have h3 : ⌊t⌋ ≤ ⌊u⌋ := Int.floor_le_floor (le_of_lt htu)
    omega
  have hgn : g ≤ s.length - 1 := by
    have h2 : ⌊u⌋ ≤ (s.length : ℤ) - 1 := by
      have h3 : ⌊((s.length : ℚ) - 1)⌋ = (s.length : ℤ) - 1 := by
        rw [show ((s.length : ℚ) - 1) = (((s.length : ℤ) - 1 : ℤ) : ℚ) by push_cast; ring]
        exact Int.floor_intCast _
      calc ⌊u⌋ ≤ ⌊((s.length : ℚ) - 1)⌋ := Int.floor_le_floor hule
      _ = (s.length : ℤ) - 1 := h3
    omega
  rcases Nat.lt_or_ge f g with hflt2 | hfge
  · -- f < g : chain through s.getD (f+1) 0 and s.getD g 0
    have hf1n : f + 1 < s.length := by omega
    have habf : s.getD f 0 < s.getD (f + 1) 0 := hmono (Nat.lt_succ_self f) hf1n
    have hinrf : s.getD (f + 1) (s.getD f 0) = s.getD (f + 1) 0 := by
      rw [List.getD_eq_getElem s _ hf1n, List.getD_eq_getElem s 0 hf1n]
    rw [hinrf]
    have hstep1 : s.getD f 0 + (t - (f : ℚ)) * (s.getD (f + 1) 0 - s.getD f 0)
        < s.getD (f + 1) 0 := by nlinarith
    have hstep2 : s.getD (f + 1) 0 ≤ s.getD g 0 := hmono' hflt2 (by omega)
    have hstep3 : s.getD g 0 ≤ s.getD g 0
        + (u - (g : ℚ)) * (s.getD (g + 1) (s.getD g 0) - s.getD g 0) := by
      by_cases hg1 : g + 1 < s.length
      · have habg : s.getD g 0 < s.getD (g + 1) 0 := hmono (Nat.lt_succ_self g) hg1
        have hinrg : s.getD (g + 1) (s.getD g 0) = s.getD (g + 1) 0 := by
          rw [List.getD_eq_getElem s _ hg1, List.getD_eq_getElem s 0 hg1]
        rw [hinrg]
        nlinarith
      · have hdefg : s.getD (g + 1) (s.getD g 0) = s.getD g 0 :=
          List.getD_eq_default _ _ (by omega)
        rw [hdefg]
        nlinarith
    linarith
  · -- f = g
    have hfe : f = g := le_antisymm hfg hfge
    rw [hfe]
    have hfleg : (g : ℚ) ≤ t := by rw [← hfe]; exact hfle
    by_cases hg1 : g + 1 < s.length
    · have habg : s.getD g 0 < s.getD (g + 1) 0 := hmono (Nat.lt_succ_self g) hg1
      have hinrg : s.getD (g + 1) (s.getD g 0) = s.getD (g + 1) 0 := by
        rw [List.getD_eq_getElem s _ hg1, List.getD_eq_getElem s 0 hg1]
      rw [hinrg]
      nlinarith
    · exfalso
      have hfe2 : g = s.length - 1 := by omega
      have h5 : ((g : ℚ)) = (s.length : ℚ) - 1 := by
        rw [hfe2]
        push_cast [Nat.cast_sub (by omega : 1 ≤ s.length)]
        ring
      linarith

theorem quantiles5_pairwise (xs : List ℚ) (hnd : xs.Nodup) (hn : 2 ≤ xs.length) :
    List.Pairwise (· < ·) (quantiles5 xs) := by
  have hlen : (List.insertionSort (· ≤ ·) xs).length = xs.length :=
    List.length_insertionSort _ _
  have hS : List.Pairwise (· < ·) (List.insertionSort (· ≤ ·) xs) := by
    have h1 : List.Pairwise (· ≤ ·) (List.insertionSort (· ≤ ·) xs) :=
      List.sorted_insertionSort _ _
    have h2 : List.Pairwise (· ≠ ·) (List.insertionSort (· ≤ ·) xs) :=
      ((List.perm_insertionSort (· ≤ ·) xs).nodup_iff).mpr hnd
    exact (h1.and h2).imp (fun h => lt_of_le_of_ne h.1 h.2)
  rw [quantiles5, List.pairwise_iff_getElem]
  intro i j hi hj hij
  simp only [List.length_map] at hi hj
  have hplen : probs5.length = 6 := rfl
  simp only [List.getElem_map]
  have hpi : ∀ (m : ℕ) (hm : m < probs5.length), probs5[m] = ((m : ℕ) : ℚ) / 5 := by
    intro m hm
    simp [probs5]
  rw [hpi i hi, hpi j hj]
  apply quantile_strictMono _ hS (by omega)
  · positivity
  · have hq : (i : ℚ) < (j : ℚ) := by exact_mod_cast hij
    linarith
  · rw [div_le_one (by norm_num)]
    have : j ≤ 5 := by omega
    exact_mod_cast this

theorem bucketIdx_bounds (n k : ℕ) : 1 ≤ bucketIdx n k ∧ bucketIdx n k ≤ 5 := by
  unfold bucketIdx
  split_ifs <;> omega

theorem quantile_lt_el_iff (s : List ℚ) (hS : List.Pairwise (· < ·) s) (hn : 2 ≤ s.length)
    (j k : ℕ) (hj : j ≤ 5) (hk : k < s.length) :
    (quantileAt s ((j : ℚ) / 5) < s.getD k 0) ↔ j * (s.length - 1) < 5 * k := by
  rw [← not_le, el_le_quantile_iff s hS hn j k hj hk, not_le]
  have hcast : ((j * (s.length - 1) : ℕ) : ℚ) = (j : ℚ) * ((s.length : ℚ) - 1) := by
    push_cast [Nat.cast_sub (show 1 ≤ s.length by omega)]
    ring
  constructor
  · intro h
    have h2 : (j : ℚ) * ((s.length : ℚ) - 1) < 5 * (k : ℚ) := by
      have h3 : (j : ℚ) / 5 * ((s.length : ℚ) - 1) = (j : ℚ) * ((s.length : ℚ) - 1) / 5 := by
        ring
      rw [h3] at h
      linarith [(div_lt_iff₀ (show (0:ℚ) < 5 by norm_num)).mp h]
    rw [← hcast] at h2
    exact_mod_cast h2
  · intro h
    have h2 : ((j * (s.length - 1) : ℕ) : ℚ) < ((5 * k : ℕ) : ℚ) := by exact_mod_cast h
    rw [hcast] at h2
    push_cast at h2
    rw [show (j : ℚ) / 5 * ((s.length : ℚ) - 1) = (j : ℚ) * ((s.length : ℚ) - 1) / 5 by ring]
    rw [div_lt_iff₀ (show (0:ℚ) < 5 by norm_num)]
    linarith

theorem cutIds_el (s : List ℚ) (hS : List.Pairwise (· < ·) s) (hn : 2 ≤ s.length)
    (k : ℕ) (hk : k < s.length) (hk1 : 1 ≤ k) :
    cutIds (probs5.map (quantileAt s)) (s.getD k 0) = bucketIdx s.length k := by
  have hp : probs5 = [((0 : ℕ) : ℚ) / 5, ((1 : ℕ) : ℚ) / 5, ((2 : ℕ) : ℚ) / 5,
      ((3 : ℕ) : ℚ) / 5, ((4 : ℕ) : ℚ) / 5, ((5 : ℕ) : ℚ) / 5] := rfl
  have key : ∀ (i : ℕ), i ≤ 5 →
      (decide (quantileAt s ((i : ℚ) / 5) < s.getD k 0) = true ↔ i * (s.length - 1) < 5 * k) := by
    intro i hi
    rw [decide_eq_true_eq]
    exact quantile_lt_el_iff s hS hn i k hi hk
  unfold cutIds
  rw [List.countP_map, hp]
  simp only [List.countP_cons, List.countP_nil, Function.comp]
  simp only [(key 0 (by norm_num)), (key 1 (by norm_num)), (key 2 (by norm_num)),
    (key 3 (by norm_num)), (key 4 (by norm_num)), (key 5 (by norm_num)),
    decide_eq_true_eq]
  unfold bucketIdx
  rw [if_neg (by omega : ¬k = 0)]
  have h0 : (0 * (s.length - 1) < 5 * k) := by omega
  have h5 : ¬(5 * (s.length - 1) < 5 * k) := by omega
  simp only [if_pos h0, if_neg h5]
  split_ifs <;> omega

theorem qcutLabelOf_el (s : List ℚ) (hS : List.Pairwise (· < ·) s) (hn : 2 ≤ s.length)
    (k : ℕ) (hk : k < s.length) :
    qcutLabelOf (probs5.map (quantileAt s)) (s.getD k 0)
      = some (labelsQ.getD (bucketIdx s.length k - 1) "") := by
  have hmono : ∀ {a b : ℕ}, a < b → b < s.length → s.getD a 0 < s.getD b 0 := by
    intro a b hab hb
    rw [List.getD_eq_getElem s 0 (lt_trans hab hb), List.getD_eq_getElem s 0 hb]
    exact List.pairwise_iff_getElem.mp hS a b _ _ hab
  have hhead : (probs5.map (quantileAt s)).headD 0 = quantileAt s (((0 : ℕ) : ℚ) / 5) := rfl
  have hq0 : quantileAt s (((0 : ℕ) : ℚ) / 5) = s.getD 0 0 := by
    unfold quantileAt
    rw [show (((0 : ℕ) : ℚ) / 5) * ((s.length : ℚ) - 1) = 0 by norm_num]
    norm_num
  have hlen6 : (probs5.map (quantileAt s)).length = 6 := rfl
  simp only [qcutLabelOf, cutLabel]
  by_cases hk0 : k = 0
  · subst hk0
    rw [hhead, hq0]
    rw [show (s.getD 0 0 == s.getD 0 0) = true from beq_self_eq_true _, hlen6]
    norm_num [bucketIdx]
  · have hk1 : 1 ≤ k := by omega
    have hne : (s.getD k 0 == quantileAt s (((0 : ℕ) : ℚ) / 5)) = false := by
      rw [hq0]
      apply beq_eq_false_iff_ne.mpr
      intro hcontra
      exact absurd hcontra.symm (ne_of_lt (hmono (by omega) hk))
    rw [hhead, hne]
    have hb := bucketIdx_bounds s.length k
    rw [show (true && false) = false from rfl]
    rw [if_neg (by simp : ¬false = true)]
    rw [cutIds_el s hS hn k hk hk1, hlen6]
    rw [if_neg (by omega)]

theorem countP_range_and (nn a b : ℕ) :
    (List.range nn).countP (fun k => decide (a ≤ k ∧ k < b)) = min b nn - min a nn := by
  induction nn with
  | zero => simp
  | succ m ih =>
    rw [List.range_succ, List.countP_append, ih]
    simp only [List.countP_cons, List.countP_nil]
    by_cases h : a ≤ m ∧ m < b
    · rw [show (decide (a ≤ m ∧ m < b)) = true from decide_eq_true h, if_pos rfl]
      omega
    · rw [show (decide (a ≤ m ∧ m < b)) = false from decide_eq_false h,
        if_neg Bool.false_ne_true]
      omega

theorem count_bucketIdx (n : ℕ) (hn : 2 ≤ n) (j : ℕ) (hj1 : 1 ≤ j) (hj5 : j ≤ 5) :
    (List.range n).countP (fun k => bucketIdx n k == j) = n / 5
    ∨ (List.range n).countP (fun k => bucketIdx n k == j) = (n + 4) / 5 := by
  interval_cases j
  · rw [List.countP_congr (fun x hx => ?_), countP_range_and n 0 ((n - 1) / 5 + 1)]
    · have hm : n % 5 = 0 ∨ n % 5 = 1 ∨ n % 5 = 2 ∨ n % 5 = 3 ∨ n % 5 = 4 := by omega
      rcases hm with h | h | h | h | h <;> omega
    · have hxn : x < n := List.mem_range.mp hx
      simp only [beq_iff_eq, decide_eq_true_eq]
      unfold bucketIdx
      split_ifs <;> omega
  · rw [List.countP_congr (fun x hx => ?_),
      countP_range_and n ((n - 1) / 5 + 1) (2 * (n - 1) / 5 + 1)]
    · have hm : n % 5 = 0 ∨ n % 5 = 1 ∨ n % 5 = 2 ∨ n % 5 = 3 ∨ n % 5 = 4 := by omega
      rcases hm with h | h | h | h | h <;> omega
    · have hxn : x < n := List.mem_range.mp hx
      simp only [beq_iff_eq, decide_eq_true_eq]
      unfold bucketIdx
      split_ifs <;> omega
  · rw [List.countP_congr (fun x hx => ?_),
      countP_range_and n (2 * (n - 1) / 5 + 1) (3 * (n - 1) / 5 + 1)]
    · have hm : n % 5 = 0 ∨ n % 5 = 1 ∨ n % 5 = 2 ∨ n % 5 = 3 ∨ n % 5 = 4 := by omega
      rcases hm with h | h | h | h | h <;> omega
    · have hxn : x < n := List.mem_range.mp hx
      simp only [beq_iff_eq, decide_eq_true_eq]
      unfold bucketIdx
      split_ifs <;> omega
  · rw [List.countP_congr (fun x hx => ?_),
      countP_range_and n (3 * (n - 1) / 5 + 1) (4 * (n - 1) / 5 + 1)]
    · have hm : n % 5 = 0 ∨ n % 5 = 1 ∨ n % 5 = 2 ∨ n % 5 = 3 ∨ n % 5 = 4 := by omega
      rcases hm with h | h | h | h | h <;> omega
    · have hxn : x < n := List.mem_range.mp hx
      simp only [beq_iff_eq, decide_eq_true_eq]
      unfold bucketIdx
      split_ifs <;> omega
  · rw [List.countP_congr (fun x hx => ?_),
      countP_range_and n (4 * (n - 1) / 5 + 1) (5 * (n - 1) / 5 + 1)]
    · have hm : n % 5 = 0 ∨ n % 5 = 1 ∨ n % 5 = 2 ∨ n % 5 = 3 ∨ n % 5 = 4 := by omega
      rcases hm with h | h | h | h | h <;> omega
    · have hxn : x < n := List.mem_range.mp hx
      simp only [beq_iff_eq, decide_eq_true_eq]
      unfold bucketIdx
      split_ifs <;> omega

theorem label_inj (b j : ℕ) (hb1 : 1 ≤ b) (hb5 : b ≤ 5) (hj1 : 1 ≤ j) (hj5 : j ≤ 5) :
    (labelsQ.getD (b - 1) "" = labelsQ.getD (j - 1) "") ↔ b = j := by
  interval_cases b <;> interval_cases j <;> decide

theorem quintIdx_label (b : ℕ) (hb1 : 1 ≤ b) (hb5 : b ≤ 5) :
    quintIdx (some (labelsQ.getD (b - 1) "")) = b := by
  interval_cases b <;> decide

theorem bucketIdx_mono (n : ℕ) {k k2 : ℕ} (h : k ≤ k2) : bucketIdx n k ≤ bucketIdx n k2 := by
  have hind : ∀ c : ℕ, (if c < 5 * k then (1 : ℕ) else 0) ≤ (if c < 5 * k2 then 1 else 0) := by
    intro c
    split_ifs <;> omega
  by_cases hk : k = 0
  · rw [bucketIdx, if_pos hk]
    exact (bucketIdx_bounds n k2).1
  · rw [bucketIdx, bucketIdx, if_neg hk, if_neg (by omega : ¬k2 = 0)]
    exact Nat.add_le_add (Nat.add_le_add (Nat.add_le_add
      (Nat.add_le_add (le_refl 1) (hind _)) (hind _)) (hind _)) (hind _)

/-- C3 amended: when the merged income column has at least 2 rows and
pairwise-distinct values, preparation succeeds and `income_quintile`
partitions the rows into the labels Q1..Q5 with every bucket size ⌊N/5⌋ or
⌈N/5⌉, and the labels are monotone in income (Q1 holds the lowest incomes,
Q5 the highest).  With tied incomes the original claim fails, because
`pd.qcut` bins by value, not by stable row order. -/
theorem claim_C3 (demos : List DemoRow) (servs : List ServiceRow)
    (hnd : (incomesOf demos servs).Nodup) (hn : 2 ≤ (incomesOf demos servs).length) :
    ∃ df, prepare_analysis_data demos servs = Except.ok df
    ∧ (∀ r ∈ df, r.income_quintile ∈ [some "Q1", some "Q2", some "Q3", some "Q4", some "Q5"])
    ∧ (∀ j, 1 ≤ j → j ≤ 5 →
        df.countP (fun r => r.income_quintile == some (labelsQ.getD (j - 1) "")) = df.length / 5
        ∨ df.countP (fun r => r.income_quintile == some (labelsQ.getD (j - 1) ""))
            = (df.length + 4) / 5)
    ∧ (∀ r ∈ df, ∀ r2 ∈ df, r.monthly_income_rwf < r2.monthly_income_rwf →
        quintIdx r.income_quintile ≤ quintIdx r2.income_quintile) := by
  have hedgesnd : (quantiles5 (incomesOf demos servs)).Nodup :=
    (quantiles5_pairwise _ hnd hn).imp ne_of_lt
  refine ⟨(mergeTables demos servs).map (fun p => mkRow p.1 p.2
    (qcutLabelOf (quantiles5 (incomesOf demos servs)) p.1.monthly_income_rwf)), ?_, ?_⟩
  · rw [prepare_analysis_data, if_pos hedgesnd]
  have hdflen : (List.map (fun p => mkRow p.1 p.2
      (qcutLabelOf (quantiles5 (incomesOf demos servs)) p.1.monthly_income_rwf))
        (mergeTables demos servs)).length = (incomesOf demos servs).length := by
    rw [List.length_map, incomesOf, List.length_map]
  rw [hdflen]
  have hslen : (List.insertionSort (· ≤ ·) (incomesOf demos servs)).length
      = (incomesOf demos servs).length := List.length_insertionSort _ _
  have hS : List.Pairwise (· < ·) (List.insertionSort (· ≤ ·) (incomesOf demos servs)) := by
    have h1 : List.Pairwise (· ≤ ·) (List.insertionSort (· ≤ ·) (incomesOf demos servs)) :=
      List.sorted_insertionSort _ _
    have h2 : List.Pairwise (· ≠ ·) (List.insertionSort (· ≤ ·) (incomesOf demos servs)) :=
      ((List.perm_insertionSort (· ≤ ·) (incomesOf demos servs)).nodup_iff).mpr hnd
    exact (h1.and h2).imp (fun h => lt_of_le_of_ne h.1 h.2)
  have hsn : 2 ≤ (List.insertionSort (· ≤ ·) (incomesOf demos servs)).length := by omega
  have hedges : quantiles5 (incomesOf demos servs)
      = probs5.map (quantileAt (List.insertionSort (· ≤ ·) (incomesOf demos servs))) := rfl
  -- every row is built from a sorted position
  have hrow : ∀ r ∈ List.map (fun p => mkRow p.1 p.2
      (qcutLabelOf (quantiles5 (incomesOf demos servs)) p.1.monthly_income_rwf))
        (mergeTables demos servs),
      ∃ k, k < (List.insertionSort (· ≤ ·) (incomesOf demos servs)).length
        ∧ r.monthly_income_rwf
            = (List.insertionSort (· ≤ ·) (incomesOf demos servs)).getD k 0
        ∧ r.income_quintile = some (labelsQ.getD
            (bucketIdx (List.insertionSort (· ≤ ·) (incomesOf demos servs)).length k - 1) "") := by
    intro r hr
    obtain ⟨p, hp, rfl⟩ := List.mem_map.mp hr
    have hv : p.1.monthly_income_rwf ∈ List.insertionSort (· ≤ ·) (incomesOf demos servs) := by
      rw [List.mem_insertionSort]
      rw [incomesOf]
      exact List.mem_map.mpr ⟨p, hp, rfl⟩
    obtain ⟨k, hk, hkv⟩ := List.mem_iff_getElem.mp hv
    refine ⟨k, hk, ?_, ?_⟩
    · show p.1.monthly_income_rwf = _
      rw [List.getD_eq_getElem _ 0 hk, hkv]
    · show qcutLabelOf (quantiles5 (incomesOf demos servs)) p.1.monthly_income_rwf = _
      rw [show p.1.monthly_income_rwf
          = (List.insertionSort (· ≤ ·) (incomesOf demos servs)).getD k 0 by
        rw [List.getD_eq_getElem _ 0 hk, hkv]]
      rw [hedges]
      exact qcutLabelOf_el _ hS hsn k hk
  refine ⟨?_, ?_, ?_⟩
  · -- labels land in Q1..Q5
    intro r hr
    obtain ⟨k, hk, _, hiq⟩ := hrow r hr
    rw [hiq]
    have hb := bucketIdx_bounds (List.insertionSort (· ≤ ·) (incomesOf demos servs)).length k
    have hcases : bucketIdx (List.insertionSort (· ≤ ·) (incomesOf demos servs)).length k = 1
        ∨ bucketIdx (List.insertionSort (· ≤ ·) (incomesOf demos servs)).length k = 2
        ∨ bucketIdx (List.insertionSort (· ≤ ·) (incomesOf demos servs)).length k = 3
        ∨ bucketIdx (List.insertionSort (· ≤ ·) (incomesOf demos servs)).length k = 4
        ∨ bucketIdx (List.insertionSort (· ≤ ·) (incomesOf demos servs)).length k = 5 := by
      omega
    rcases hcases with h | h | h | h | h <;> rw [h] <;> simp [labelsQ]
  · -- bucket sizes
    intro j hj1 hj5
    have hsrange : List.insertionSort (· ≤ ·) (incomesOf demos servs)
        = (List.range (List.insertionSort (· ≤ ·) (incomesOf demos servs)).length).map
            (fun k => (List.insertionSort (· ≤ ·) (incomesOf demos servs)).getD k 0) := by
      apply List.ext_getElem
      · rw [List.length_map, List.length_range]
      · intro i h1 h2
        rw [List.getElem_map, List.getElem_range, List.getD_eq_getElem _ 0 h1]
    have hpt : ∀ x ∈ List.range (List.insertionSort (· ≤ ·) (incomesOf demos servs)).length,
        (((fun v => qcutLabelOf (quantiles5 (incomesOf demos servs)) v
              == some (labelsQ.getD (j - 1) ""))
            ∘ (fun k => (List.insertionSort (· ≤ ·) (incomesOf demos servs)).getD k 0)) x = true
          ↔ ((fun k => bucketIdx
              (List.insertionSort (· ≤ ·) (incomesOf demos servs)).length k == j) x) = true) := by
      intro x hx
      have hxn : x < (List.insertionSort (· ≤ ·) (incomesOf demos servs)).length :=
        List.mem_range.mp hx
      simp only [Function.comp_apply]
      rw [hedges, qcutLabelOf_el _ hS hsn x hxn]
      simp only [beq_iff_eq, Option.some.injEq]
      have hbx := bucketIdx_bounds (List.insertionSort (· ≤ ·) (incomesOf demos servs)).length x
      rw [label_inj _ j hbx.1 hbx.2 hj1 hj5]
    have hstep : List.countP ((fun r => r.income_quintile == some (labelsQ.getD (j - 1) ""))
          ∘ (fun p => mkRow p.1 p.2
            (qcutLabelOf (quantiles5 (incomesOf demos servs)) p.1.monthly_income_rwf)))
          (mergeTables demos servs)
        = List.countP (fun k => bucketIdx
            (List.insertionSort (· ≤ ·) (incomesOf demos servs)).length k == j)
            (List.range (List.insertionSort (· ≤ ·) (incomesOf demos servs)).length) := by
      calc List.countP ((fun r => r.income_quintile == some (labelsQ.getD (j - 1) ""))
            ∘ (fun p => mkRow p.1 p.2
              (qcutLabelOf (quantiles5 (incomesOf demos servs)) p.1.monthly_income_rwf)))
            (mergeTables demos servs)
          = List.countP (fun v => qcutLabelOf (quantiles5 (incomesOf demos servs)) v
              == some (labelsQ.getD (j - 1) ""))
              (List.map (fun p : DemoRow × ServiceRow => p.1.monthly_income_rwf)
                (mergeTables demos servs)) :=
            (List.countP_map (fun v => qcutLabelOf (quantiles5 (incomesOf demos servs)) v
              == some (labelsQ.getD (j - 1) ""))
              (fun p : DemoRow × ServiceRow => p.1.monthly_income_rwf)
              (mergeTables demos servs)).symm
        _ = List.countP (fun v => qcutLabelOf (quantiles5 (incomesOf demos servs)) v
              == some (labelsQ.getD (j - 1) ""))
              (List.insertionSort (· ≤ ·) (incomesOf demos servs)) :=
            (List.Perm.countP_eq _ (List.perm_insertionSort (· ≤ ·) (incomesOf demos servs))).symm
        _ = List.countP (fun v => qcutLabelOf (quantiles5 (incomesOf demos servs)) v
              == some (labelsQ.getD (j - 1) ""))
              ((List.range (List.insertionSort (· ≤ ·) (incomesOf demos servs)).length).map
                (fun k => (List.insertionSort (· ≤ ·) (incomesOf demos servs)).getD k 0)) :=
            congrArg _ hsrange
        _ = List.countP ((fun v => qcutLabelOf (quantiles5 (incomesOf demos servs)) v
              == some (labelsQ.getD (j - 1) ""))
              ∘ (fun k => (List.insertionSort (· ≤ ·) (incomesOf demos servs)).getD k 0))
              (List.range (List.insertionSort (· ≤ ·) (incomesOf demos servs)).length) :=
            List.countP_map _ _ _
        _ = List.countP (fun k => bucketIdx
              (List.insertionSort (· ≤ ·) (incomesOf demos servs)).length k == j)
              (List.range (List.insertionSort (· ≤ ·) (incomesOf demos servs)).length) :=
            List.countP_congr hpt
    have hfinal : List.countP (fun r => r.income_quintile == some (labelsQ.getD (j - 1) ""))
          (List.map (fun p => mkRow p.1 p.2
            (qcutLabelOf (quantiles5 (incomesOf demos servs)) p.1.monthly_income_rwf))
            (mergeTables demos servs))
        = List.countP (fun k => bucketIdx
            (List.insertionSort (· ≤ ·) (incomesOf demos servs)).length k == j)
            (List.range (List.insertionSort (· ≤ ·) (incomesOf demos servs)).length) := by
      rw [List.countP_map]
      exact hstep
    rw [hfinal, ← hslen]
    exact count_bucketIdx _ (by omega) j hj1 hj5
  · -- monotone in income
    intro r hr r2 hr2 hlt
    obtain ⟨k, hk, hkv, hiq⟩ := hrow r hr
    obtain ⟨k2, hk2, hkv2, hiq2⟩ := hrow r2 hr2
    have hkk : k ≤ k2 := by
      by_contra hc
      push_neg at hc
      have h3 : (List.insertionSort (· ≤ ·) (incomesOf demos servs)).getD k2 0
          < (List.insertionSort (· ≤ ·) (incomesOf demos servs)).getD k 0 := by
        rw [List.getD_eq_getElem _ 0 hk, List.getD_eq_getElem _ 0 hk2]
        exact List.pairwise_iff_getElem.mp hS k2 k _ _ hc
      rw [hkv, hkv2] at hlt
      linarith
    rw [hiq, hiq2]
    have hb := bucketIdx_bounds (List.insertionSort (· ≤ ·) (incomesOf demos servs)).length k
    have hb2 := bucketIdx_bounds (List.insertionSort (· ≤ ·) (incomesOf demos servs)).length k2
    rw [quintIdx_label _ hb.1 hb.2, quintIdx_label _ hb2.1 hb2.2]
    exact bucketIdx_mono _ hkk

/-- Witness for C3: the hypotheses hold on the concrete two-row input and the
conclusion evaluates there. -/
theorem claim_C3_witness :
    (incomesOf demosW servsW).Nodup
    ∧ 2 ≤ (incomesOf demosW servsW).length
    ∧ (∃ df, prepare_analysis_data demosW servsW = Except.ok df
        ∧ (∀ r ∈ df, r.income_quintile ∈ [some "Q1", some "Q2", some "Q3", some "Q4", some "Q5"])
        ∧ (∀ j, 1 ≤ j → j ≤ 5 →
            df.countP (fun r => r.income_quintile == some (labelsQ.getD (j - 1) ""))
              = df.length / 5
            ∨ df.countP (fun r => r.income_quintile == some (labelsQ.getD (j - 1) ""))
              = (df.length + 4) / 5)
        ∧ (∀ r ∈ df, ∀ r2 ∈ df, r.monthly_income_rwf < r2.monthly_income_rwf →
            quintIdx r.income_quintile ≤ quintIdx r2.income_quintile)) :=
  ⟨by with_unfolding_all decide, by with_unfolding_all decide,
   claim_C3 demosW servsW (by with_unfolding_all decide) (by with_unfolding_all decide)⟩

end FinDash
